import Mathlib

/-!
Shallow embedding of the stat-series transformation in
`src/frontend/src/components/resources/server/stat-chart.tsx`:
record reversal, load-average / network-rate / single-metric series
construction, display-unit selection and value-axis maximum.

JavaScript numbers are modelled as `JSNum`: a finite exact rational, the
two infinities, or NaN.  Finite arithmetic is exact rational arithmetic
(IEEE rounding is out of scope); the special values matter for the
unguarded divisions in `getStat` and for `Math.max` and comparisons.
-/

/-- Model of a JavaScript number: finite (an exact rational), one of the
two infinities, or NaN. -/
inductive JSNum where
  | fin (q : ℚ)
  | posInf
  | negInf
  | nan
deriving DecidableEq, Repr, Inhabited

/-- JavaScript division `a / b` for finite operands: `x / 0` is NaN when
`x = 0` and a signed infinity otherwise. -/
def jsDiv (a b : ℚ) : JSNum :=
  if b = 0 then
    if a = 0 then .nan else if 0 < a then .posInf else .negInf
  else .fin (a / b)

/-- JavaScript `Math.max` on two numbers: NaN is absorbing, otherwise the
usual order with `-Infinity` at the bottom and `+Infinity` at the top. -/
def jsMax : JSNum → JSNum → JSNum
  | .nan, _ => .nan
  | _, .nan => .nan
  | .posInf, _ => .posInf
  | _, .posInf => .posInf
  | .negInf, b => b
  | a, .negInf => a
  | .fin a, .fin b => .fin (max a b)

/-- JavaScript `Math.max(...args)`: fold of `jsMax` starting from
`Math.max()`, which is `-Infinity`. -/
def jsMaxAll (l : List JSNum) : JSNum :=
  l.foldl jsMax .negInf

/-- JavaScript comparison `x >= q` against a finite constant:
false on NaN, true on `+Infinity`, false on `-Infinity`. -/
def JSNum.geQ : JSNum → ℚ → Bool
  | .fin a, q => decide (q ≤ a)
  | .posInf, _ => true
  | .negInf, _ => false
  | .nan, _ => false

/-- JavaScript strict equality `x === q` against a finite constant:
false on NaN and on the infinities. -/
def JSNum.eqQ : JSNum → ℚ → Bool
  | .fin a, q => decide (a = q)
  | _, _ => false

/-- JavaScript multiplication by a positive finite constant (used with
`1.2` only): infinities keep their sign, NaN propagates. -/
def JSNum.mulPos : JSNum → ℚ → JSNum
  | .fin a, c => .fin (a * c)
  | .posInf, _ => .posInf
  | .negInf, _ => .negInf
  | .nan, _ => .nan

/-- JavaScript division by a positive finite constant (used with the unit
divisors `1`, `1024`, `1048576` only): infinities keep their sign, NaN
propagates. -/
def JSNum.divPos : JSNum → ℚ → JSNum
  | .fin a, d => .fin (a / d)
  | .posInf, _ => .posInf
  | .negInf, _ => .negInf
  | .nan, _ => .nan

/-- JavaScript `x || 0` on an optional numeric field: an absent field and
`0` both give `0` (NaN cannot occur among these inputs). -/
def jsOr0 (o : Option ℚ) : ℚ :=
  match o with
  | none => 0
  | some q => if q = 0 then 0 else q

/-- The `load_average` sub-record of `Types.SystemStatsRecord`. -/
structure LoadAverageRec where
  one : ℚ
  five : ℚ
  fifteen : ℚ
deriving DecidableEq, Repr, Inhabited

/-- The fields of `Types.SystemStatsRecord` read by the chart.  Fields the
code accesses through `?? 0` or `|| 0` are optional. -/
structure SystemStatsRecord where
  ts : ℚ
  cpu_perc : Option ℚ
  mem_used_gb : ℚ
  mem_total_gb : ℚ
  disk_used_gb : ℚ
  disk_total_gb : ℚ
  network_ingress_bytes : Option ℚ
  network_egress_bytes : Option ℚ
  load_average : Option LoadAverageRec
deriving DecidableEq, Repr, Inhabited

/-- The `StatType` string union, as a closed enumeration. -/
inductive StatType where
  | Cpu
  | Memory
  | Disk
  | NetworkIngress
  | NetworkEgress
  | LoadAverage
deriving DecidableEq, Repr

/-- The string literal each `StatType` member stands for in the source. -/
def StatType.label : StatType → String
  | .Cpu => "Cpu"
  | .Memory => "Memory"
  | .Disk => "Disk"
  | .NetworkIngress => "Network Ingress"
  | .NetworkEgress => "Network Egress"
  | .LoadAverage => "Load Average"

/-- The `StatDatapoint` output shape: `{ date, value }`. -/
structure StatDatapoint where
  date : ℚ
  value : JSNum
deriving DecidableEq, Repr, Inhabited

/-- One output series: `{ label, data }`. -/
structure StatSeries where
  label : String
  data : List StatDatapoint
deriving DecidableEq, Repr, Inhabited

/-- Modelled from the spec: `convertTsMsToLocalUnixTsInMs` lives in
`@lib/utils`, which is not among the supplied sources.  The spec carries
each record timestamp unchanged into the output `Datapoint` and only
requires that points preserve the record order after reversal, so the
conversion is modelled as the identity map on timestamps (an
order-preserving shift to local time). -/
def convertTsMsToLocalUnixTsInMs (ts : ℚ) : ℚ := ts

/-- Embedding of `getStat` (stat-chart.tsx lines 254-261).  The Memory and
Disk branches divide with no guard, so a zero total yields a JavaScript
special value. -/
def getStat (stat : SystemStatsRecord) (ty : StatType) : JSNum :=
  if ty = .Cpu then .fin (jsOr0 stat.cpu_perc)
  else if ty = .Memory then jsDiv (100 * stat.mem_used_gb) stat.mem_total_gb
  else if ty = .Disk then jsDiv (100 * stat.disk_used_gb) stat.disk_total_gb
  else if ty = .NetworkIngress then .fin (jsOr0 stat.network_ingress_bytes)
  else if ty = .NetworkEgress then .fin (jsOr0 stat.network_egress_bytes)
  else .fin 0

/-- The `getBytes` closure of the network branch of `seriesData`
(lines 57-60). -/
def getBytes (ty : StatType) (s : SystemStatsRecord) : ℚ :=
  if ty = .NetworkIngress then s.network_ingress_bytes.getD 0
  else s.network_egress_bytes.getD 0

/-- The cumulative-bytes-to-rate map of the network branch (lines 61-71):
index 0 maps to rate 0; index `idx > 0` maps to
`max(0, bytes[idx] - bytes[idx-1]) / max(1, (ts[idx] - ts[idx-1]) / 1000)`
in B/s.  The `none` arm is unreachable: an index produced by `enum` with
`idx ≠ 0` always has `idx - 1 < records.length`. -/
def networkRate (bytesOf : SystemStatsRecord → ℚ) (records : List SystemStatsRecord) :
    List StatDatapoint :=
  records.enum.map fun p =>
    let idx := p.1
    let s := p.2
    let date := convertTsMsToLocalUnixTsInMs s.ts
    if idx = 0 then ⟨date, .fin 0⟩
    else
      match records[idx - 1]? with
      | some prev =>
        let deltaBytes := max 0 (bytesOf s - bytesOf prev)
        let deltaSeconds := max 1 ((s.ts - prev.ts) / 1000)
        ⟨date, .fin (deltaBytes / deltaSeconds)⟩
      | none => ⟨date, .nan⟩

/-- Embedding of the `seriesData` memo of `StatChart` (lines 32-93).
`none` models an absent `data?.stats` (the early return `[]`); `some stats`
models a present record array, which is reversed and dispatched on the
chart type. -/
def seriesData (stats : Option (List SystemStatsRecord)) (ty : StatType) :
    List StatSeries :=
  match stats with
  | none => []
  | some stats =>
    let records := stats.reverse
    if ty = .LoadAverage then
      let one := records.map fun s =>
        StatDatapoint.mk (convertTsMsToLocalUnixTsInMs s.ts)
          (.fin ((s.load_average.map LoadAverageRec.one).getD 0))
      let five := records.map fun s =>
        StatDatapoint.mk (convertTsMsToLocalUnixTsInMs s.ts)
          (.fin ((s.load_average.map LoadAverageRec.five).getD 0))
      let fifteen := records.map fun s =>
        StatDatapoint.mk (convertTsMsToLocalUnixTsInMs s.ts)
          (.fin ((s.load_average.map LoadAverageRec.fifteen).getD 0))
      [⟨"1m", one⟩, ⟨"5m", five⟩, ⟨"15m", fifteen⟩]
    else if ty = .NetworkIngress ∨ ty = .NetworkEgress then
      [⟨ty.label, networkRate (getBytes ty) records⟩]
    else
      [⟨ty.label,
        records.map fun stat =>
          ⟨convertTsMsToLocalUnixTsInMs stat.ts, getStat stat ty⟩⟩]

/-- `BYTES_PER_MB` (line 109). -/
def BYTES_PER_MB : ℚ := 1048576

/-- `BYTES_PER_KB` (line 110). -/
def BYTES_PER_KB : ℚ := 1024

/-- `allValues` in `InnerStatChart` (line 152), with `seriesData` supplied
as `StatChart` always does (line 103). -/
def allValues (sd : List StatSeries) : List JSNum :=
  sd.foldr (fun s acc => s.data.map StatDatapoint.value ++ acc) []

/-- `maxStatValue` (line 153): `Math.max` over all series values, with the
empty list replaced by `[0]`. -/
def maxStatValue (sd : List StatSeries) : JSNum :=
  jsMaxAll (if (allValues sd).length ≠ 0 then allValues sd else [.fin 0])

/-- The `choose` closure for network units (lines 158-166). -/
def chooseUnit (m : JSNum) : String × ℚ :=
  if m.geQ BYTES_PER_MB then ("MB/s", BYTES_PER_MB)
  else if m.geQ BYTES_PER_KB then ("KB/s", BYTES_PER_KB)
  else ("B/s", 1)

/-- Result shape of the `unit` / `unitDivisor` / `maxUnitValue` memo. -/
structure UnitInfo where
  unit : String
  unitDivisor : ℚ
  maxUnitValue : JSNum
deriving DecidableEq, Repr

/-- The `unit` / `unitDivisor` / `maxUnitValue` memo of `InnerStatChart`
(lines 155-183); `1.2` is the exact rational `6/5`. -/
def unitInfo (ty : StatType) (m : JSNum) : UnitInfo :=
  if ty = .NetworkIngress ∨ ty = .NetworkEgress then
    let chosen := chooseUnit m
    ⟨chosen.1, chosen.2,
      (if m.eqQ 0 then JSNum.fin 1 else m.mulPos (6 / 5)).divPos chosen.2⟩
  else if ty = .LoadAverage then
    ⟨"", 1, if m.eqQ 0 then JSNum.fin 1 else m.mulPos (6 / 5)⟩
  else
    ⟨"", 1, .fin 100⟩

/-- The value-axis `getValue` (lines 188-194): network values are divided
by the chosen unit divisor at render time, all others plot as stored. -/
def valueAxisGetValue (ty : StatType) (unitDivisor : ℚ) (datum : StatDatapoint) :
    JSNum :=
  if ty = .NetworkIngress ∨ ty = .NetworkEgress then datum.value.divPos unitDivisor
  else datum.value

/-- Order of the display units, for the monotonicity property:
B/s < KB/s < MB/s. -/
def unitRank (u : String) : ℕ :=
  if u = "MB/s" then 2 else if u = "KB/s" then 1 else 0

/-! ## Helper lemmas about the network-rate series -/

/-- Proof-side description of the rational rate value `networkRate` stores
at index `i` (0 at index 0, the delta quotient elsewhere). -/
def rateAt (bytesOf : SystemStatsRecord → ℚ) (records : List SystemStatsRecord)
    (i : ℕ) : ℚ :=
  if i = 0 then 0
  else
    match records[i]?, records[i - 1]? with
    | some s, some prev =>
      max 0 (bytesOf s - bytesOf prev) / max 1 ((s.ts - prev.ts) / 1000)
    | _, _ => 0

lemma networkRate_length (bytesOf : SystemStatsRecord → ℚ)
    (records : List SystemStatsRecord) :
    (networkRate bytesOf records).length = records.length := by
  simp [networkRate, List.enum_length]

lemma getElem?_networkRate (bytesOf : SystemStatsRecord → ℚ)
    (records : List SystemStatsRecord) (i : ℕ) (s : SystemStatsRecord)
    (hs : records[i]? = some s) :
    (networkRate bytesOf records)[i]?
      = some ⟨convertTsMsToLocalUnixTsInMs s.ts, .fin (rateAt bytesOf records i)⟩ := by
  rw [networkRate, List.getElem?_map, List.getElem?_enum, hs, Option.map_some']
  rcases Nat.eq_zero_or_pos i with hi | hi
  · subst hi
    simp [rateAt]
  · have hne : i ≠ 0 := Nat.pos_iff_ne_zero.mp hi
    rcases h1 : records[i - 1]? with _ | prev
    · exfalso
      have hi_lt : i < records.length := (List.getElem?_eq_some.mp hs).1
      have hle : records.length ≤ i - 1 := List.getElem?_eq_none_iff.mp h1
      omega
    · simp [rateAt, hne, hs, h1]

lemma rateAt_nonneg (bytesOf : SystemStatsRecord → ℚ)
    (records : List SystemStatsRecord) (i : ℕ) :
    0 ≤ rateAt bytesOf records i := by
  rw [rateAt]
  by_cases hi : i = 0
  · simp [hi]
  · simp only [hi, if_false]
    rcases h0 : records[i]? with _ | s <;> rcases h1 : records[i - 1]? with _ | prev <;>
      simp only []
    · exact le_refl 0
    · exact le_refl 0
    · exact le_refl 0
    · exact div_nonneg (le_max_left 0 _) (le_trans zero_le_one (le_max_left 1 _))

lemma seriesData_network (stats : List SystemStatsRecord) (ty : StatType)
    (hty : ty = StatType.NetworkIngress ∨ ty = StatType.NetworkEgress) :
    seriesData (some stats) ty
      = [⟨ty.label, networkRate (getBytes ty) stats.reverse⟩] := by
  rcases hty with rfl | rfl <;> rfl

/-- C1: for Network Ingress and Network Egress, over the reversed
(ascending-time) records, the rate series has value 0 at index 0 and value
`max(0, bytes[i] - bytes[i-1]) / max(1, (ts[i] - ts[i-1]) / 1000)` at every
index `i > 0`; consequently every stored rate is a non-negative finite
number. -/
theorem C1_network_rate_series (stats : List SystemStatsRecord) (ty : StatType)
    (hty : ty = StatType.NetworkIngress ∨ ty = StatType.NetworkEgress) :
    ∃ s : StatSeries,
      seriesData (some stats) ty = [s] ∧
      (∀ r, stats.reverse[0]? = some r →
        s.data[0]? = some ⟨convertTsMsToLocalUnixTsInMs r.ts, .fin 0⟩) ∧
      (∀ i r r', 0 < i → stats.reverse[i]? = some r →
        stats.reverse[i - 1]? = some r' →
        s.data[i]? = some ⟨convertTsMsToLocalUnixTsInMs r.ts,
          .fin (max 0 (getBytes ty r - getBytes ty r') /
                max 1 ((r.ts - r'.ts) / 1000))⟩) ∧
      (∀ d ∈ s.data, ∃ q, d.value = .fin q ∧ 0 ≤ q) := by
  refine ⟨_, seriesData_network stats ty hty, ?_, ?_, ?_⟩
  · intro r hr
    have h := getElem?_networkRate (getBytes ty) stats.reverse 0 r hr
    simpa [rateAt] using h
  · intro i r r' hi h1 h2
    have h := getElem?_networkRate (getBytes ty) stats.reverse i r h1
    have hrate : rateAt (getBytes ty) stats.reverse i
        = max 0 (getBytes ty r - getBytes ty r') / max 1 ((r.ts - r'.ts) / 1000) := by
      rw [rateAt]
      simp [Nat.pos_iff_ne_zero.mp hi, h1, h2]
    rw [hrate] at h
    exact h
  · intro d hd
    obtain ⟨i, hi⟩ := List.mem_iff_getElem?.mp hd
    have hlt : i < stats.reverse.length := by
      have := (List.getElem?_eq_some.mp hi).1
      simpa [networkRate_length] using this
    obtain ⟨r, hr⟩ : ∃ r, stats.reverse[i]? = some r :=
      ⟨stats.reverse[i], List.getElem?_eq_getElem hlt⟩
    rw [getElem?_networkRate (getBytes ty) stats.reverse i r hr] at hi
    refine ⟨rateAt (getBytes ty) stats.reverse i, ?_, rateAt_nonneg _ _ _⟩
    cases hi
    rfl

/-! ## Helper lemmas about `maxStatValue` and the unit choice -/

lemma allValues_singleton (s : StatSeries) :
    allValues [s] = s.data.map StatDatapoint.value := by
  simp [allValues]

lemma foldl_jsMax_fin (L : List JSNum) (a : ℚ)
    (hL : ∀ v ∈ L, ∃ q, v = JSNum.fin q) :
    ∃ m, L.foldl jsMax (.fin a) = .fin m ∧ a ≤ m ∧
      (∀ r, JSNum.fin r ∈ L → r ≤ m) ∧ (m = a ∨ JSNum.fin m ∈ L) := by
  induction L generalizing a with
  | nil => exact ⟨a, rfl, le_refl a, by simp, Or.inl rfl⟩
  | cons v vs ih =>
    obtain ⟨x, rfl⟩ := hL v (List.mem_cons_self _ _)
    obtain ⟨m, hm, ham, hbound, hmem⟩ :=
      ih (max a x) (fun w hw => hL w (List.mem_cons_of_mem _ hw))
    refine ⟨m, ?_, le_trans (le_max_left a x) ham, ?_, ?_⟩
    · simpa [jsMax] using hm
    · intro r hr
      rcases List.mem_cons.mp hr with h | h
      · have hrx : r = x := by
          injection h
        exact hrx ▸ le_trans (le_max_right a x) ham
      · exact hbound r h
    · rcases hmem with h | h
      · rcases max_choice a x with hax | hax
        · exact Or.inl (h.trans hax)
        · exact Or.inr (by rw [h, hax]; exact List.mem_cons_self _ _)
      · exact Or.inr (List.mem_cons_of_mem _ h)

lemma maxStatValue_allfin (sd : List StatSeries)
    (h : ∀ v ∈ allValues sd, ∃ q, v = JSNum.fin q) :
    ∃ m, maxStatValue sd = .fin m ∧
      (∀ r, JSNum.fin r ∈ allValues sd → r ≤ m) ∧
      (JSNum.fin m ∈ allValues sd ∨ (allValues sd = [] ∧ m = 0)) := by
  rcases hA : allValues sd with _ | ⟨v, vs⟩
  · refine ⟨0, ?_, by simp [hA], Or.inr ⟨rfl, rfl⟩⟩
    simp [maxStatValue, hA, jsMaxAll, jsMax]
  · obtain ⟨x, hx⟩ := h v (hA ▸ List.mem_cons_self _ _)
    subst hx
    have h' : ∀ w ∈ vs, ∃ q, w = JSNum.fin q :=
      fun w hw => h w (hA ▸ List.mem_cons_of_mem _ hw)
    obtain ⟨m, hm, hxm, hbound, hmem⟩ := foldl_jsMax_fin vs x h'
    refine ⟨m, ?_, ?_, ?_⟩
    · rw [maxStatValue, hA]
      simpa [jsMaxAll, jsMax] using hm
    · intro r hr
      rcases List.mem_cons.mp hr with hh | hh
      · have : r = x := by injection hh
        exact this ▸ hxm
      · exact hbound r hh
    · rcases hmem with hh | hh
      · exact Or.inl (hh ▸ List.mem_cons_self _ _)
      · exact Or.inl (List.mem_cons_of_mem _ hh)

lemma allValues_network (stats : List SystemStatsRecord) (ty : StatType)
    (hty : ty = StatType.NetworkIngress ∨ ty = StatType.NetworkEgress) :
    allValues (seriesData (some stats) ty)
      = (List.range stats.length).map
          (fun i => JSNum.fin (rateAt (getBytes ty) stats.reverse i)) := by
  rw [seriesData_network stats ty hty, allValues_singleton]
  apply List.ext_getElem?
  intro i
  by_cases hi : i < stats.length
  · have hi' : i < stats.reverse.length := by simpa using hi
    have hr : stats.reverse[i]? = some stats.reverse[i] := List.getElem?_eq_getElem hi'
    rw [List.getElem?_map, getElem?_networkRate (getBytes ty) stats.reverse i _ hr,
      List.getElem?_map, List.getElem?_range hi]
    rfl
  · have h1 : (networkRate (getBytes ty) stats.reverse).length ≤ i := by
      rw [networkRate_length]
      simpa using Nat.le_of_not_lt hi
    have h2 : (List.range stats.length).length ≤ i := by
      simpa using Nat.le_of_not_lt hi
    rw [List.getElem?_map, List.getElem?_map,
      List.getElem?_eq_none h1, List.getElem?_eq_none h2]
    rfl

lemma maxStatValue_network (stats : List SystemStatsRecord) (ty : StatType)
    (hty : ty = StatType.NetworkIngress ∨ ty = StatType.NetworkEgress) :
    ∃ m, maxStatValue (seriesData (some stats) ty) = .fin m ∧ 0 ≤ m ∧
      (∀ i, i < stats.length → rateAt (getBytes ty) stats.reverse i ≤ m) ∧
      (m = 0 ∨ ∃ i, i < stats.length ∧ rateAt (getBytes ty) stats.reverse i = m) := by
  have hAV := allValues_network stats ty hty
  have hfin : ∀ v ∈ allValues (seriesData (some stats) ty), ∃ q, v = JSNum.fin q := by
    rw [hAV]
    intro v hv
    obtain ⟨i, _, rfl⟩ := List.mem_map.mp hv
    exact ⟨_, rfl⟩
  obtain ⟨m, hm, hbound, hmem⟩ := maxStatValue_allfin _ hfin
  have hattain : m = 0 ∨ ∃ i, i < stats.length ∧ rateAt (getBytes ty) stats.reverse i = m := by
    rcases hmem with hh | hh
    · rw [hAV] at hh
      obtain ⟨i, hi, hfi⟩ := List.mem_map.mp hh
      have him : i < stats.length := List.mem_range.mp hi
      have : rateAt (getBytes ty) stats.reverse i = m := by injection hfi
      exact Or.inr ⟨i, him, this⟩
    · exact Or.inl hh.2
  refine ⟨m, hm, ?_, ?_, hattain⟩
  · rcases hattain with hh | ⟨i, _, hh⟩
    · exact hh.symm.le
    · exact hh ▸ rateAt_nonneg _ _ _
  · intro i hi
    apply hbound
    rw [hAV]
    exact List.mem_map.mpr ⟨i, List.mem_range.mpr hi, rfl⟩

lemma unitInfo_network (ty : StatType)
    (hty : ty = StatType.NetworkIngress ∨ ty = StatType.NetworkEgress) (m : JSNum) :
    unitInfo ty m = ⟨(chooseUnit m).1, (chooseUnit m).2,
      (if m.eqQ 0 then JSNum.fin 1 else m.mulPos (6 / 5)).divPos (chooseUnit m).2⟩ := by
  rcases hty with rfl | rfl <;> rfl

lemma chooseUnit_fin (m : ℚ) :
    chooseUnit (.fin m)
      = if BYTES_PER_MB ≤ m then ("MB/s", BYTES_PER_MB)
        else if BYTES_PER_KB ≤ m then ("KB/s", BYTES_PER_KB)
        else ("B/s", (1 : ℚ)) := by
  simp [chooseUnit, JSNum.geQ]

/-- A record carrying only a timestamp and an ingress byte counter, used
for concrete network scenarios. -/
def mkNetRecord (t b : ℚ) : SystemStatsRecord :=
  { ts := t, cpu_perc := none, mem_used_gb := 0, mem_total_gb := 0,
    disk_used_gb := 0, disk_total_gb := 0,
    network_ingress_bytes := some b, network_egress_bytes := none,
    load_average := none }

/-- The spec scenario records (newest first, as the data source returns
them): ascending order is ts 0 / 1000 bytes, ts 1000 / 3000 bytes,
ts 2000 / 3000 bytes. -/
def sampleNetStats : List SystemStatsRecord :=
  [mkNetRecord 2000 3000, mkNetRecord 1000 3000, mkNetRecord 0 1000]

/-- C2: for the network charts the display unit is chosen once for the
whole series from `maxRate`, the maximum of all computed rate values (0 for
an empty series): MB/s with divisor 1048576 when `maxRate ≥ 1048576`, else
KB/s with divisor 1024 when `maxRate ≥ 1024`, else B/s with divisor 1; and
every point's plotted value is its stored B/s value divided by that single
divisor. -/
theorem C2_unit_selection (stats : List SystemStatsRecord) (ty : StatType)
    (hty : ty = StatType.NetworkIngress ∨ ty = StatType.NetworkEgress) :
    ∃ maxRate : ℚ,
      maxStatValue (seriesData (some stats) ty) = .fin maxRate ∧
      (∀ s ∈ seriesData (some stats) ty, ∀ d ∈ s.data,
        ∃ q, d.value = .fin q ∧ q ≤ maxRate) ∧
      (maxRate = 0 ∨
        ∃ s ∈ seriesData (some stats) ty, ∃ d ∈ s.data, d.value = .fin maxRate) ∧
      (stats = [] → maxRate = 0) ∧
      (unitInfo ty (maxStatValue (seriesData (some stats) ty))).unit
        = (if BYTES_PER_MB ≤ maxRate then "MB/s"
           else if BYTES_PER_KB ≤ maxRate then "KB/s" else "B/s") ∧
      (unitInfo ty (maxStatValue (seriesData (some stats) ty))).unitDivisor
        = (if BYTES_PER_MB ≤ maxRate then BYTES_PER_MB
           else if BYTES_PER_KB ≤ maxRate then BYTES_PER_KB else 1) ∧
      (∀ d : StatDatapoint, ∀ q, d.value = .fin q →
        valueAxisGetValue ty
            (unitInfo ty (maxStatValue (seriesData (some stats) ty))).unitDivisor d
          = .fin (q /
              (unitInfo ty (maxStatValue (seriesData (some stats) ty))).unitDivisor)) := by
  obtain ⟨m, hm, hnn, hbound, hattain⟩ := maxStatValue_network stats ty hty
  refine ⟨m, hm, ?_, ?_, ?_, ?_, ?_, ?_⟩
  · intro s hs d hd
    rw [seriesData_network stats ty hty, List.mem_singleton] at hs
    subst hs
    obtain ⟨i, hi⟩ := List.mem_iff_getElem?.mp hd
    have hlt : i < stats.reverse.length := by
      have := (List.getElem?_eq_some.mp hi).1
      simpa [networkRate_length] using this
    have hr : stats.reverse[i]? = some stats.reverse[i] := List.getElem?_eq_getElem hlt
    rw [getElem?_networkRate (getBytes ty) stats.reverse i _ hr] at hi
    refine ⟨rateAt (getBytes ty) stats.reverse i, ?_, ?_⟩
    · cases hi
      rfl
    · exact hbound i (by simpa using hlt)
  · rcases hattain with hh | ⟨i, hi, heq⟩
    · exact Or.inl hh
    · refine Or.inr ⟨⟨ty.label, networkRate (getBytes ty) stats.reverse⟩, ?_, ?_⟩
      · rw [seriesData_network stats ty hty]
        exact List.mem_singleton.mpr rfl
      · have hlt : i < stats.reverse.length := by simpa using hi
        have hr : stats.reverse[i]? = some stats.reverse[i] := List.getElem?_eq_getElem hlt
        refine ⟨⟨convertTsMsToLocalUnixTsInMs stats.reverse[i].ts,
          .fin (rateAt (getBytes ty) stats.reverse i)⟩, ?_, by rw [heq]⟩
        exact List.mem_iff_getElem?.mpr
          ⟨i, getElem?_networkRate (getBytes ty) stats.reverse i _ hr⟩
  · intro hempty
    subst hempty
    rcases hattain with hh | ⟨i, hi, _⟩
    · exact hh
    · exact absurd hi (by simp)
  · rw [hm, unitInfo_network ty hty, chooseUnit_fin]
    split_ifs <;> rfl
  · rw [hm, unitInfo_network ty hty, chooseUnit_fin]
    split_ifs <;> rfl
  · intro d q hq
    rcases hty with rfl | rfl <;>
      simp [valueAxisGetValue, hq, JSNum.divPos]

/-- Witness for C2 on the spec scenario records, where the chosen unit is
KB/s. -/
theorem C2_unit_selection_witness :
    (∃ maxRate : ℚ,
      maxStatValue (seriesData (some sampleNetStats) StatType.NetworkIngress)
        = .fin maxRate ∧
      (∀ s ∈ seriesData (some sampleNetStats) StatType.NetworkIngress,
        ∀ d ∈ s.data, ∃ q, d.value = .fin q ∧ q ≤ maxRate) ∧
      (maxRate = 0 ∨
        ∃ s ∈ seriesData (some sampleNetStats) StatType.NetworkIngress,
          ∃ d ∈ s.data, d.value = .fin maxRate) ∧
      (sampleNetStats = [] → maxRate = 0) ∧
      (unitInfo StatType.NetworkIngress
          (maxStatValue (seriesData (some sampleNetStats) StatType.NetworkIngress))).unit
        = (if BYTES_PER_MB ≤ maxRate then "MB/s"
           else if BYTES_PER_KB ≤ maxRate then "KB/s" else "B/s") ∧
      (unitInfo StatType.NetworkIngress
          (maxStatValue (seriesData (some sampleNetStats) StatType.NetworkIngress))).unitDivisor
        = (if BYTES_PER_MB ≤ maxRate then BYTES_PER_MB
           else if BYTES_PER_KB ≤ maxRate then BYTES_PER_KB else 1) ∧
      (∀ d : StatDatapoint, ∀ q, d.value = .fin q →
        valueAxisGetValue StatType.NetworkIngress
            (unitInfo StatType.NetworkIngress
              (maxStatValue (seriesData (some sampleNetStats) StatType.NetworkIngress))).unitDivisor d
          = .fin (q /
              (unitInfo StatType.NetworkIngress
                (maxStatValue (seriesData (some sampleNetStats) StatType.NetworkIngress))).unitDivisor))) ∧
    (unitInfo StatType.NetworkIngress
        (maxStatValue (seriesData (some sampleNetStats) StatType.NetworkIngress))).unit
      = "KB/s" := by
  refine ⟨C2_unit_selection sampleNetStats StatType.NetworkIngress (Or.inl rfl), ?_⟩
  have h1 : seriesData (some sampleNetStats) StatType.NetworkIngress
      = [⟨"Network Ingress",
          [⟨0, .fin 0⟩, ⟨1000, .fin 2000⟩, ⟨2000, .fin 0⟩]⟩] := by
    simp [sampleNetStats, mkNetRecord, seriesData, networkRate, List.enum, List.enumFrom,
      getBytes, convertTsMsToLocalUnixTsInMs, StatType.label]
    norm_num
  rw [h1]
  simp [maxStatValue, allValues, jsMaxAll, jsMax, unitInfo, chooseUnit,
    JSNum.geQ, JSNum.eqQ, BYTES_PER_MB, BYTES_PER_KB]
  norm_num

/-! ## Helper lemmas for the Load Average branch and the axis maximum -/

lemma seriesData_load (stats : List SystemStatsRecord) :
    seriesData (some stats) StatType.LoadAverage
      = [⟨"1m", stats.reverse.map fun s =>
            ⟨convertTsMsToLocalUnixTsInMs s.ts,
             .fin ((s.load_average.map LoadAverageRec.one).getD 0)⟩⟩,
         ⟨"5m", stats.reverse.map fun s =>
            ⟨convertTsMsToLocalUnixTsInMs s.ts,
             .fin ((s.load_average.map LoadAverageRec.five).getD 0)⟩⟩,
         ⟨"15m", stats.reverse.map fun s =>
            ⟨convertTsMsToLocalUnixTsInMs s.ts,
             .fin ((s.load_average.map LoadAverageRec.fifteen).getD 0)⟩⟩] := rfl

lemma allValues_load_mem (stats : List SystemStatsRecord) (v : JSNum)
    (hv : v ∈ allValues (seriesData (some stats) StatType.LoadAverage)) :
    ∃ r ∈ stats,
      v = .fin ((r.load_average.map LoadAverageRec.one).getD 0) ∨
      v = .fin ((r.load_average.map LoadAverageRec.five).getD 0) ∨
      v = .fin ((r.load_average.map LoadAverageRec.fifteen).getD 0) := by
  rw [seriesData_load] at hv
  simp only [allValues, List.foldr_cons, List.foldr_nil, List.append_nil,
    List.mem_append, List.map_map, List.mem_map, Function.comp] at hv
  rcases hv with ⟨r, hr, hveq⟩ | ⟨r, hr, hveq⟩ | ⟨r, hr, hveq⟩
  · exact ⟨r, List.mem_reverse.mp hr, Or.inl hveq.symm⟩
  · exact ⟨r, List.mem_reverse.mp hr, Or.inr (Or.inl hveq.symm)⟩
  · exact ⟨r, List.mem_reverse.mp hr, Or.inr (Or.inr hveq.symm)⟩

lemma maxStatValue_load_nonneg (stats : List SystemStatsRecord)
    (h : ∀ r ∈ stats, ∀ la, r.load_average = some la →
      0 ≤ la.one ∧ 0 ≤ la.five ∧ 0 ≤ la.fifteen) :
    ∃ m, maxStatValue (seriesData (some stats) StatType.LoadAverage) = .fin m ∧
      0 ≤ m := by
  have hval : ∀ v ∈ allValues (seriesData (some stats) StatType.LoadAverage),
      ∃ q, v = JSNum.fin q ∧ 0 ≤ q := by
    intro v hv
    obtain ⟨r, hr, hcase⟩ := allValues_load_mem stats v hv
    rcases hcase with rfl | rfl | rfl
    · refine ⟨_, rfl, ?_⟩
      rcases hla : r.load_average with _ | la
      · simp [hla]
      · simpa [hla] using (h r hr la hla).1
    · refine ⟨_, rfl, ?_⟩
      rcases hla : r.load_average with _ | la
      · simp [hla]
      · simpa [hla] using (h r hr la hla).2.1
    · refine ⟨_, rfl, ?_⟩
      rcases hla : r.load_average with _ | la
      · simp [hla]
      · simpa [hla] using (h r hr la hla).2.2
  obtain ⟨m, hm, _, hmem⟩ :=
    maxStatValue_allfin _ (fun v hv => ⟨(hval v hv).choose, (hval v hv).choose_spec.1⟩)
  refine ⟨m, hm, ?_⟩
  rcases hmem with hh | hh
  · obtain ⟨q, hq, hq0⟩ := hval _ hh
    have : m = q := by injection hq
    exact this ▸ hq0
  · exact hh.2.symm.le

lemma chooseUnit_divisor_pos (m : JSNum) : 0 < (chooseUnit m).2 := by
  rw [chooseUnit]
  split_ifs <;> norm_num [BYTES_PER_MB, BYTES_PER_KB]

/-- C3: the value-axis maximum is `(maxRate == 0 ? 1 : maxRate * 1.2) /
divisor` for the network charts and `(maxValue == 0 ? 1 : maxValue * 1.2)`
for Load Average (maximum over the combined points of all three series);
in both cases, for non-negative inputs the axis maximum is strictly
positive even when all values are 0. -/
theorem C3_axis_max (stats : List SystemStatsRecord) (ty : StatType) :
    (ty = StatType.NetworkIngress ∨ ty = StatType.NetworkEgress →
      ∃ maxRate : ℚ,
        maxStatValue (seriesData (some stats) ty) = .fin maxRate ∧
        (unitInfo ty (maxStatValue (seriesData (some stats) ty))).maxUnitValue
          = .fin ((if maxRate = 0 then 1 else maxRate * (6 / 5)) /
              (unitInfo ty (maxStatValue (seriesData (some stats) ty))).unitDivisor) ∧
        (∃ a : ℚ,
          (unitInfo ty (maxStatValue (seriesData (some stats) ty))).maxUnitValue
            = .fin a ∧ 0 < a)) ∧
    (ty = StatType.LoadAverage →
      (∀ r ∈ stats, ∀ la, r.load_average = some la →
        0 ≤ la.one ∧ 0 ≤ la.five ∧ 0 ≤ la.fifteen) →
      ∃ maxValue : ℚ,
        maxStatValue (seriesData (some stats) ty) = .fin maxValue ∧
        (unitInfo ty (maxStatValue (seriesData (some stats) ty))).maxUnitValue
          = .fin (if maxValue = 0 then 1 else maxValue * (6 / 5)) ∧
        (∃ a : ℚ,
          (unitInfo ty (maxStatValue (seriesData (some stats) ty))).maxUnitValue
            = .fin a ∧ 0 < a)) := by
  constructor
  · intro hty
    obtain ⟨m, hm, hnn, _, _⟩ := maxStatValue_network stats ty hty
    have hdpos : 0 < (chooseUnit (JSNum.fin m)).2 := chooseUnit_divisor_pos _
    refine ⟨m, hm, ?_, ?_⟩
    · rw [hm, unitInfo_network ty hty]
      by_cases hm0 : m = 0
      · simp [hm0, JSNum.eqQ, JSNum.divPos]
      · simp [hm0, JSNum.eqQ, JSNum.mulPos, JSNum.divPos]
    · rw [hm, unitInfo_network ty hty]
      by_cases hm0 : m = 0
      · refine ⟨1 / (chooseUnit (JSNum.fin m)).2, ?_, by positivity⟩
        simp [hm0, JSNum.eqQ, JSNum.divPos]
      · have hmpos : 0 < m := lt_of_le_of_ne hnn (Ne.symm hm0)
        refine ⟨m * (6 / 5) / (chooseUnit (JSNum.fin m)).2, ?_, by positivity⟩
        simp [hm0, JSNum.eqQ, JSNum.mulPos, JSNum.divPos]
  · intro hty h
    subst hty
    obtain ⟨m, hm, hnn⟩ := maxStatValue_load_nonneg stats h
    refine ⟨m, hm, ?_, ?_⟩
    · rw [hm]
      by_cases hm0 : m = 0
      · simp [unitInfo, hm0, JSNum.eqQ]
      · simp [unitInfo, hm0, JSNum.eqQ, JSNum.mulPos]
    · rw [hm]
      by_cases hm0 : m = 0
      · exact ⟨1, by simp [unitInfo, hm0, JSNum.eqQ], one_pos⟩
      · have hmpos : 0 < m := lt_of_le_of_ne hnn (Ne.symm hm0)
        exact ⟨m * (6 / 5), by simp [unitInfo, hm0, JSNum.eqQ, JSNum.mulPos], by positivity⟩

/-- Witness for C3: the network component applied to the spec scenario
records. -/
theorem C3_axis_max_witness :
    ∃ maxRate : ℚ,
      maxStatValue (seriesData (some sampleNetStats) StatType.NetworkIngress)
        = .fin maxRate ∧
      (unitInfo StatType.NetworkIngress
          (maxStatValue (seriesData (some sampleNetStats) StatType.NetworkIngress))).maxUnitValue
        = .fin ((if maxRate = 0 then 1 else maxRate * (6 / 5)) /
            (unitInfo StatType.NetworkIngress
              (maxStatValue (seriesData (some sampleNetStats) StatType.NetworkIngress))).unitDivisor) ∧
      (∃ a : ℚ,
        (unitInfo StatType.NetworkIngress
            (maxStatValue (seriesData (some sampleNetStats) StatType.NetworkIngress))).maxUnitValue
          = .fin a ∧ 0 < a) :=
  (C3_axis_max sampleNetStats StatType.NetworkIngress).1 (Or.inl rfl)

/-! ## Memory division (C4) -/

lemma seriesData_memory (stats : List SystemStatsRecord) :
    seriesData (some stats) StatType.Memory
      = [⟨"Memory", stats.reverse.map fun stat =>
            ⟨convertTsMsToLocalUnixTsInMs stat.ts, getStat stat StatType.Memory⟩⟩] := rfl

/-- A record with positive memory use but a zero memory total. -/
def C4record : SystemStatsRecord :=
  { ts := 0, cpu_perc := none, mem_used_gb := 2, mem_total_gb := 0,
    disk_used_gb := 0, disk_total_gb := 0,
    network_ingress_bytes := none, network_egress_bytes := none,
    load_average := none }

/-- Counterexample to C4 as stated: with `memUsedGb = 2` and
`memTotalGb = 0` the Memory series value is `+Infinity`, not NaN
(JavaScript gives `200 / 0 = Infinity`). -/
theorem C4_counterexample :
    seriesData (some [C4record]) StatType.Memory
      = [⟨"Memory", [⟨0, JSNum.posInf⟩]⟩] ∧ JSNum.posInf ≠ JSNum.nan := by
  constructor
  · rw [seriesData_memory]
    simp [C4record, getStat, jsDiv, convertTsMsToLocalUnixTsInMs]
  · intro h
    cases h

/-- C4 (amended): every Memory series value is the unguarded JavaScript
division `100 * memUsedGb / memTotalGb`; when `memTotalGb` is 0 the value
is the JavaScript special value — NaN when `memUsedGb` is 0, `+Infinity`
when it is positive, `-Infinity` when it is negative. -/
theorem C4_memory_division (stats : List SystemStatsRecord) :
    ∀ s ∈ seriesData (some stats) StatType.Memory,
      ∀ (i : ℕ) (r : SystemStatsRecord), stats.reverse[i]? = some r →
        ∃ d : StatDatapoint, s.data[i]? = some d ∧
          d.value = jsDiv (100 * r.mem_used_gb) r.mem_total_gb ∧
          (r.mem_total_gb = 0 →
            d.value = if r.mem_used_gb = 0 then JSNum.nan
                      else if 0 < r.mem_used_gb then JSNum.posInf
                      else JSNum.negInf) := by
  intro s hs i r hr
  rw [seriesData_memory, List.mem_singleton] at hs
  subst hs
  refine ⟨⟨convertTsMsToLocalUnixTsInMs r.ts, getStat r StatType.Memory⟩, ?_, ?_, ?_⟩
  · rw [List.getElem?_map, hr, Option.map_some']
  · rfl
  · intro h0
    show getStat r StatType.Memory = _
    rw [getStat]
    simp only [reduceCtorEq, if_false, if_true, reduceIte]
    rw [jsDiv, h0, if_pos rfl]
    by_cases hu : r.mem_used_gb = 0
    · simp [hu]
    · have h100 : (100 : ℚ) * r.mem_used_gb ≠ 0 := by
        simp [mul_eq_zero, hu]
      by_cases hp : 0 < r.mem_used_gb
      · have : 0 < (100 : ℚ) * r.mem_used_gb := by positivity
        simp [h100, this, hu, hp]
      · have : ¬ 0 < (100 : ℚ) * r.mem_used_gb := by
          intro hc
          exact hp (by nlinarith)
        simp [h100, this, hu, hp]

/-- A record with zero memory use and zero memory total (0/0 gives NaN). -/
def C4zeroRecord : SystemStatsRecord :=
  { ts := 0, cpu_perc := none, mem_used_gb := 0, mem_total_gb := 0,
    disk_used_gb := 0, disk_total_gb := 0,
    network_ingress_bytes := none, network_egress_bytes := none,
    load_average := none }

/-- Witness for the amended C4 at a record with zero total. -/
theorem C4_memory_division_witness :
    ∃ d : StatDatapoint, (StatSeries.mk "Memory"
        [⟨convertTsMsToLocalUnixTsInMs C4zeroRecord.ts,
          getStat C4zeroRecord StatType.Memory⟩]).data[0]? = some d ∧
      d.value = jsDiv (100 * C4zeroRecord.mem_used_gb) C4zeroRecord.mem_total_gb ∧
      (C4zeroRecord.mem_total_gb = 0 →
        d.value = if C4zeroRecord.mem_used_gb = 0 then JSNum.nan
                  else if 0 < C4zeroRecord.mem_used_gb then JSNum.posInf
                  else JSNum.negInf) :=
  C4_memory_division [C4zeroRecord]
    ⟨"Memory", [⟨convertTsMsToLocalUnixTsInMs C4zeroRecord.ts,
      getStat C4zeroRecord StatType.Memory⟩]⟩
    (by rw [seriesData_memory]; simp)
    0 C4zeroRecord (by simp)

/-! ## Series shapes (C5, C6) -/

/-- C5: the Load Average kind produces exactly three series labeled
"1m", "5m", "15m" in that order, with values from
`loadAverage.one/five/fifteen` defaulting to 0; every other kind produces
exactly one series. -/
theorem C5_series_counts (stats : List SystemStatsRecord) :
    seriesData (some stats) StatType.LoadAverage
      = [⟨"1m", stats.reverse.map fun s =>
            ⟨convertTsMsToLocalUnixTsInMs s.ts,
             .fin ((s.load_average.map LoadAverageRec.one).getD 0)⟩⟩,
         ⟨"5m", stats.reverse.map fun s =>
            ⟨convertTsMsToLocalUnixTsInMs s.ts,
             .fin ((s.load_average.map LoadAverageRec.five).getD 0)⟩⟩,
         ⟨"15m", stats.reverse.map fun s =>
            ⟨convertTsMsToLocalUnixTsInMs s.ts,
             .fin ((s.load_average.map LoadAverageRec.fifteen).getD 0)⟩⟩] ∧
    (seriesData (some stats) StatType.Cpu).length = 1 ∧
    (seriesData (some stats) StatType.Memory).length = 1 ∧
    (seriesData (some stats) StatType.Disk).length = 1 ∧
    (seriesData (some stats) StatType.NetworkIngress).length = 1 ∧
    (seriesData (some stats) StatType.NetworkEgress).length = 1 :=
  ⟨seriesData_load stats, rfl, rfl, rfl, rfl, rfl⟩

lemma map_series_spec (stats : List SystemStatsRecord)
    (f : SystemStatsRecord → StatDatapoint)
    (hf : ∀ r, (f r).date = convertTsMsToLocalUnixTsInMs r.ts) :
    (stats.reverse.map f).length = stats.length ∧
    (∀ (i : ℕ) (r : SystemStatsRecord), stats.reverse[i]? = some r →
      ∃ d : StatDatapoint, (stats.reverse.map f)[i]? = some d ∧
        d.date = convertTsMsToLocalUnixTsInMs r.ts) := by
  refine ⟨by simp, ?_⟩
  intro i r h
  rw [List.getElem?_map, h, Option.map_some']
  exact ⟨f r, rfl, hf r⟩

/-- C6: for every record sequence and every metric kind, each produced
series has exactly one point per input record, and point `i` carries the
(converted) timestamp of record `i` of the reversed, ascending-time
sequence. -/
theorem C6_point_per_record (stats : List SystemStatsRecord) (ty : StatType) :
    ∀ s ∈ seriesData (some stats) ty,
      s.data.length = stats.length ∧
      (∀ (i : ℕ) (r : SystemStatsRecord), stats.reverse[i]? = some r →
        ∃ d : StatDatapoint, s.data[i]? = some d ∧
          d.date = convertTsMsToLocalUnixTsInMs r.ts) := by
  intro s hs
  cases ty with
  | LoadAverage =>
    rw [seriesData_load] at hs
    rcases List.mem_cons.mp hs with rfl | hs
    · exact map_series_spec stats _ (fun r => rfl)
    rcases List.mem_cons.mp hs with rfl | hs
    · exact map_series_spec stats _ (fun r => rfl)
    rcases List.mem_cons.mp hs with rfl | hs
    · exact map_series_spec stats _ (fun r => rfl)
    · cases hs
  | NetworkIngress =>
    rw [seriesData_network stats _ (Or.inl rfl), List.mem_singleton] at hs
    subst hs
    refine ⟨by simp [networkRate_length], ?_⟩
    intro i r h
    exact ⟨_, getElem?_networkRate _ _ i r h, rfl⟩
  | NetworkEgress =>
    rw [seriesData_network stats _ (Or.inr rfl), List.mem_singleton] at hs
    subst hs
    refine ⟨by simp [networkRate_length], ?_⟩
    intro i r h
    exact ⟨_, getElem?_networkRate _ _ i r h, rfl⟩
  | Cpu =>
    rw [show seriesData (some stats) StatType.Cpu
        = [⟨"Cpu", stats.reverse.map fun stat =>
            ⟨convertTsMsToLocalUnixTsInMs stat.ts, getStat stat StatType.Cpu⟩⟩] from rfl,
      List.mem_singleton] at hs
    subst hs
    exact map_series_spec stats _ (fun r => rfl)
  | Memory =>
    rw [seriesData_memory, List.mem_singleton] at hs
    subst hs
    exact map_series_spec stats _ (fun r => rfl)
  | Disk =>
    rw [show seriesData (some stats) StatType.Disk
        = [⟨"Disk", stats.reverse.map fun stat =>
            ⟨convertTsMsToLocalUnixTsInMs stat.ts, getStat stat StatType.Disk⟩⟩] from rfl,
      List.mem_singleton] at hs
    subst hs
    exact map_series_spec stats _ (fun r => rfl)

/-- Witness for C6 on the spec scenario records and Network Ingress. -/
theorem C6_point_per_record_witness :
    (StatSeries.mk "Network Ingress"
        [⟨0, JSNum.fin 0⟩, ⟨1000, JSNum.fin 2000⟩, ⟨2000, JSNum.fin 0⟩]).data.length
      = sampleNetStats.length ∧
    (∀ (i : ℕ) (r : SystemStatsRecord), sampleNetStats.reverse[i]? = some r →
      ∃ d : StatDatapoint, (StatSeries.mk "Network Ingress"
          [⟨0, JSNum.fin 0⟩, ⟨1000, JSNum.fin 2000⟩, ⟨2000, JSNum.fin 0⟩]).data[i]?
        = some d ∧ d.date = convertTsMsToLocalUnixTsInMs r.ts) :=
  C6_point_per_record sampleNetStats StatType.NetworkIngress
    ⟨"Network Ingress", [⟨0, JSNum.fin 0⟩, ⟨1000, JSNum.fin 2000⟩, ⟨2000, JSNum.fin 0⟩]⟩
    (by
      have h1 : seriesData (some sampleNetStats) StatType.NetworkIngress
          = [⟨"Network Ingress",
              [⟨0, .fin 0⟩, ⟨1000, .fin 2000⟩, ⟨2000, .fin 0⟩]⟩] := by
        simp [sampleNetStats, mkNetRecord, seriesData, networkRate, List.enum,
          List.enumFrom, getBytes, convertTsMsToLocalUnixTsInMs, StatType.label]
        norm_num
      rw [h1]
      exact List.mem_singleton.mpr rfl)

/-! ## Empty input (C8) and parallel load series (C9) -/

/-- Counterexample to C8 as stated: for a present but empty record array
the series list is not empty (the Cpu branch still returns one series
object, with an empty point list). -/
theorem C8_counterexample :
    seriesData (some ([] : List SystemStatsRecord)) StatType.Cpu ≠ [] := by
  intro h
  exact absurd (congrArg List.length h) (by simp [seriesData])

/-- C8 (amended): for an absent stats field `seriesData` returns the empty
series list for every kind, without error; for a present but empty record
sequence it returns its usual series objects — three for Load Average, one
for every other kind — each with an empty point list, leaving the
empty-state decision (the series-list length check) to the caller. -/
theorem C8_empty_behaviour (ty : StatType) :
    seriesData none ty = [] ∧
    (seriesData (some []) ty).all (fun s => s.data.isEmpty) = true ∧
    (seriesData (some []) ty).length
      = (if ty = StatType.LoadAverage then 3 else 1) := by
  refine ⟨rfl, ?_, ?_⟩ <;> cases ty <;> rfl

/-- C9: the three Load Average series are parallel — same length and
identical timestamps at every index, all mapped from the same reversed
record sequence. -/
theorem C9_load_series_parallel (stats : List SystemStatsRecord) :
    ∃ s1 s5 s15 : StatSeries,
      seriesData (some stats) StatType.LoadAverage = [s1, s5, s15] ∧
      s1.data.length = s5.data.length ∧ s5.data.length = s15.data.length ∧
      (∀ i : ℕ,
        (s1.data[i]?).map StatDatapoint.date = (s5.data[i]?).map StatDatapoint.date ∧
        (s5.data[i]?).map StatDatapoint.date = (s15.data[i]?).map StatDatapoint.date) := by
  refine ⟨_, _, _, seriesData_load stats, by simp, by simp, ?_⟩
  intro i
  constructor <;>
    · rw [List.getElem?_map, List.getElem?_map, Option.map_map, Option.map_map]
      cases stats.reverse[i]? <;> rfl

/-! ## Finite rates and the interval floor (C10) -/

/-- C10: for the network charts every stored rate value is a finite
rational, because the divisor `max(1, (ts[i] - ts[i-1]) / 1000)` is at
least 1 — hence never zero — for every pair of consecutive records,
including duplicate and out-of-order timestamps. -/
theorem C10_rates_finite (stats : List SystemStatsRecord) (ty : StatType)
    (hty : ty = StatType.NetworkIngress ∨ ty = StatType.NetworkEgress) :
    (∀ s ∈ seriesData (some stats) ty, ∀ d ∈ s.data, ∃ q : ℚ, d.value = .fin q) ∧
    (∀ r r' : SystemStatsRecord,
      1 ≤ max 1 ((r.ts - r'.ts) / 1000) ∧ max 1 ((r.ts - r'.ts) / 1000) ≠ 0) := by
  constructor
  · intro s hs d hd
    rw [seriesData_network stats ty hty, List.mem_singleton] at hs
    subst hs
    obtain ⟨i, hi⟩ := List.mem_iff_getElem?.mp hd
    have hlt : i < stats.reverse.length := by
      have := (List.getElem?_eq_some.mp hi).1
      simpa [networkRate_length] using this
    have hr : stats.reverse[i]? = some stats.reverse[i] := List.getElem?_eq_getElem hlt
    rw [getElem?_networkRate (getBytes ty) stats.reverse i _ hr] at hi
    refine ⟨rateAt (getBytes ty) stats.reverse i, ?_⟩
    cases hi
    rfl
  · intro r r'
    refine ⟨le_max_left 1 _, ?_⟩
    have : (0 : ℚ) < max 1 ((r.ts - r'.ts) / 1000) :=
      lt_of_lt_of_le zero_lt_one (le_max_left 1 _)
    exact ne_of_gt this

/-- Witness for C10 on the spec scenario records. -/
theorem C10_rates_finite_witness :
    (∀ s ∈ seriesData (some sampleNetStats) StatType.NetworkIngress,
      ∀ d ∈ s.data, ∃ q : ℚ, d.value = .fin q) ∧
    (∀ r r' : SystemStatsRecord,
      1 ≤ max 1 ((r.ts - r'.ts) / 1000) ∧ max 1 ((r.ts - r'.ts) / 1000) ≠ 0) :=
  C10_rates_finite sampleNetStats StatType.NetworkIngress (Or.inl rfl)

/-! ## Monotone unit selection (C7) -/

lemma rateAt_le (bytesOf : SystemStatsRecord → ℚ)
    (records1 records2 : List SystemStatsRecord)
    (hlen : records1.length = records2.length)
    (hts : ∀ (i : ℕ) (r1 r2 : SystemStatsRecord),
      records1[i]? = some r1 → records2[i]? = some r2 → r1.ts = r2.ts)
    (hdelta : ∀ (i : ℕ) (r1 r1p r2 r2p : SystemStatsRecord), 0 < i →
      records1[i]? = some r1 → records1[i - 1]? = some r1p →
      records2[i]? = some r2 → records2[i - 1]? = some r2p →
      bytesOf r1 - bytesOf r1p ≤ bytesOf r2 - bytesOf r2p)
    (i : ℕ) :
    rateAt bytesOf records1 i ≤ rateAt bytesOf records2 i := by
  by_cases hi0 : i = 0
  · simp [rateAt, hi0]
  · have hipos : 0 < i := Nat.pos_of_ne_zero hi0
    rcases h1 : records1[i]? with _ | r1
    · have hge : records1.length ≤ i := List.getElem?_eq_none_iff.mp h1
      have h2 : records2[i]? = none := List.getElem?_eq_none (hlen ▸ hge)
      rw [rateAt, rateAt]
      simp [hi0, h1, h2]
    · have hlt1 : i < records1.length := (List.getElem?_eq_some.mp h1).1
      have hlt1p : i - 1 < records1.length := lt_of_le_of_lt (Nat.sub_le i 1) hlt1
      have h1p : records1[i - 1]? = some records1[i - 1] := List.getElem?_eq_getElem hlt1p
      have hlt2 : i < records2.length := hlen ▸ hlt1
      have hlt2p : i - 1 < records2.length := lt_of_le_of_lt (Nat.sub_le i 1) hlt2
      have h2 : records2[i]? = some records2[i] := List.getElem?_eq_getElem hlt2
      have h2p : records2[i - 1]? = some records2[i - 1] := List.getElem?_eq_getElem hlt2p
      rw [rateAt, rateAt]
      simp only [hi0, if_false, h1, h1p, h2, h2p]
      have hts1 : r1.ts = records2[i].ts := hts i r1 records2[i] h1 h2
      have htsp : records1[i - 1].ts = records2[i - 1].ts :=
        hts (i - 1) records1[i - 1] records2[i - 1] h1p h2p
      rw [hts1, htsp]
      have hden : (0 : ℚ) < max 1 ((records2[i].ts - records2[i - 1].ts) / 1000) :=
        lt_of_lt_of_le zero_lt_one (le_max_left _ _)
      exact (div_le_div_iff_of_pos_right hden).mpr
        (max_le_max (le_refl 0)
          (hdelta i r1 records1[i - 1] records2[i] records2[i - 1] hipos h1 h1p h2 h2p))

lemma unitRank_le_two (u : String) : unitRank u ≤ 2 := by
  rw [unitRank]
  split_ifs <;> norm_num

lemma unitRank_chooseUnit_mono (m1 m2 : ℚ) (h : m1 ≤ m2) :
    unitRank (chooseUnit (.fin m1)).1 ≤ unitRank (chooseUnit (.fin m2)).1 := by
  rw [chooseUnit_fin, chooseUnit_fin]
  rcases le_or_lt BYTES_PER_MB m2 with h2M | h2M
  · rw [if_pos h2M]
    calc unitRank (if BYTES_PER_MB ≤ m1 then ("MB/s", BYTES_PER_MB)
          else if BYTES_PER_KB ≤ m1 then ("KB/s", BYTES_PER_KB)
          else ("B/s", (1 : ℚ))).1 ≤ 2 := unitRank_le_two _
      _ = unitRank ("MB/s", BYTES_PER_MB).1 := by decide
  · have h1M : ¬ BYTES_PER_MB ≤ m1 := fun hc => absurd (le_trans hc h) (not_le.mpr h2M)
    rw [if_neg (not_le.mpr h2M), if_neg h1M]
    rcases le_or_lt BYTES_PER_KB m2 with h2K | h2K
    · rw [if_pos h2K]
      rcases le_or_lt BYTES_PER_KB m1 with h1K | h1K
      · rw [if_pos h1K]
      · rw [if_neg (not_le.mpr h1K)]
        show unitRank "B/s" ≤ unitRank "KB/s"
        decide
    · have h1K : ¬ BYTES_PER_KB ≤ m1 := fun hc => absurd (le_trans hc h) (not_le.mpr h2K)
      rw [if_neg (not_le.mpr h2K), if_neg h1K]

/-- C7: unit selection is monotonic — for two record sequences of equal
length with pointwise equal timestamps, if every ascending-order byte
delta of the second dominates the corresponding delta of the first, the
unit chosen for the second is never smaller (B/s < KB/s < MB/s). -/
theorem C7_unit_monotone (stats1 stats2 : List SystemStatsRecord) (ty : StatType)
    (hty : ty = StatType.NetworkIngress ∨ ty = StatType.NetworkEgress)
    (hlen : stats1.length = stats2.length)
    (hts : ∀ (i : ℕ) (r1 r2 : SystemStatsRecord),
      stats1.reverse[i]? = some r1 → stats2.reverse[i]? = some r2 → r1.ts = r2.ts)
    (hdelta : ∀ (i : ℕ) (r1 r1p r2 r2p : SystemStatsRecord), 0 < i →
      stats1.reverse[i]? = some r1 → stats1.reverse[i - 1]? = some r1p →
      stats2.reverse[i]? = some r2 → stats2.reverse[i - 1]? = some r2p →
      getBytes ty r1 - getBytes ty r1p ≤ getBytes ty r2 - getBytes ty r2p) :
    unitRank (unitInfo ty (maxStatValue (seriesData (some stats1) ty))).unit
      ≤ unitRank (unitInfo ty (maxStatValue (seriesData (some stats2) ty))).unit := by
  obtain ⟨m1, hm1, hnn1, hbound1, hatt1⟩ := maxStatValue_network stats1 ty hty
  obtain ⟨m2, hm2, hnn2, hbound2, hatt2⟩ := maxStatValue_network stats2 ty hty
  have hrate : ∀ i : ℕ,
      rateAt (getBytes ty) stats1.reverse i ≤ rateAt (getBytes ty) stats2.reverse i :=
    rateAt_le (getBytes ty) stats1.reverse stats2.reverse (by simpa using hlen) hts hdelta
  have hm12 : m1 ≤ m2 := by
    rcases hatt1 with h0 | ⟨i, hi, heq⟩
    · exact h0.le.trans hnn2
    · calc m1 = rateAt (getBytes ty) stats1.reverse i := heq.symm
        _ ≤ rateAt (getBytes ty) stats2.reverse i := hrate i
        _ ≤ m2 := hbound2 i (hlen ▸ hi)
  rw [hm1, hm2, unitInfo_network ty hty, unitInfo_network ty hty]
  exact unitRank_chooseUnit_mono m1 m2 hm12

/-- Records with the same timestamps as `sampleNetStats` but uniformly
larger byte deltas. -/
def sampleNetStats2 : List SystemStatsRecord :=
  [mkNetRecord 2000 5000, mkNetRecord 1000 5000, mkNetRecord 0 1000]

/-- Witness for C7: raising the deltas of the spec scenario records never
shrinks the chosen unit. -/
theorem C7_unit_monotone_witness :
    unitRank (unitInfo StatType.NetworkIngress
        (maxStatValue (seriesData (some sampleNetStats) StatType.NetworkIngress))).unit
      ≤ unitRank (unitInfo StatType.NetworkIngress
        (maxStatValue (seriesData (some sampleNetStats2) StatType.NetworkIngress))).unit := by
  have e1 : sampleNetStats.reverse
      = [mkNetRecord 0 1000, mkNetRecord 1000 3000, mkNetRecord 2000 3000] := rfl
  have e2 : sampleNetStats2.reverse
      = [mkNetRecord 0 1000, mkNetRecord 1000 5000, mkNetRecord 2000 5000] := rfl
  refine C7_unit_monotone sampleNetStats sampleNetStats2 StatType.NetworkIngress
    (Or.inl rfl) rfl ?_ ?_
  · intro i r1 r2 h1 h2
    rw [e1] at h1
    rw [e2] at h2
    rcases i with _ | _ | _ | i
    · simp only [List.getElem?_cons_zero, Option.some.injEq] at h1 h2
      subst h1
      subst h2
      rfl
    · simp only [List.getElem?_cons_succ, List.getElem?_cons_zero,
        Option.some.injEq] at h1 h2
      subst h1
      subst h2
      rfl
    · simp only [List.getElem?_cons_succ, List.getElem?_cons_zero,
        Option.some.injEq] at h1 h2
      subst h1
      subst h2
      rfl
    · simp at h1
  · intro i r1 r1p r2 r2p hi h1 h1p h2 h2p
    rw [e1] at h1 h1p
    rw [e2] at h2 h2p
    rcases i with _ | _ | _ | i
    · exact absurd hi (lt_irrefl 0)
    · simp only [List.getElem?_cons_succ, List.getElem?_cons_zero,
        Option.some.injEq, Nat.sub_self] at h1 h1p h2 h2p
      subst h1
      subst h1p
      subst h2
      subst h2p
      simp [getBytes, mkNetRecord]
      norm_num
    · simp only [List.getElem?_cons_succ, List.getElem?_cons_zero,
        Option.some.injEq] at h1 h1p h2 h2p
      subst h1
      subst h1p
      subst h2
      subst h2p
      simp [getBytes, mkNetRecord]
    · simp at h1

/-- Witness for C1 on the spec scenario records. -/
theorem C1_network_rate_series_witness :
    ∃ s : StatSeries,
      seriesData (some sampleNetStats) StatType.NetworkIngress = [s] ∧
      (∀ r, sampleNetStats.reverse[0]? = some r →
        s.data[0]? = some ⟨convertTsMsToLocalUnixTsInMs r.ts, .fin 0⟩) ∧
      (∀ i r r', 0 < i → sampleNetStats.reverse[i]? = some r →
        sampleNetStats.reverse[i - 1]? = some r' →
        s.data[i]? = some ⟨convertTsMsToLocalUnixTsInMs r.ts,
          .fin (max 0 (getBytes StatType.NetworkIngress r
                  - getBytes StatType.NetworkIngress r') /
                max 1 ((r.ts - r'.ts) / 1000))⟩) ∧
      (∀ d ∈ s.data, ∃ q, d.value = .fin q ∧ 0 ≤ q) :=
  C1_network_rate_series sampleNetStats StatType.NetworkIngress (Or.inl rfl)
